import Mathlib

set_option maxHeartbeats 1000000

/-!
Verification of the VSTL test harness (`vstl.hpp`, version 3.3).

The harness runs a statically registered sequence of test units, surviving
fatal POSIX signals raised inside a test body by `siglongjmp`-ing back to a
checkpoint established in the scheduler loop (`vstl::run`).  This file embeds
the harness state and control flow in Lean:

* `St` mirrors the process-wide globals of namespace `vstl`
  (`expected_signal`, `fail_on_alarm`, the armed interval timer, and the
  counters `failed` / `successful` / `skipped` / `index`).
* A test body is embedded deeply as a list of `Item`s: primitive steps
  (ordinary computation, raising a handled signal, throwing, arming the
  timer) and `EXPECT_SIGNAL` blocks whose inner code is a list of primitive
  steps.  The interpreter (`runItems`, `callLoop`) reproduces the control
  flow of `vstl::signal_handler`, the `EXPECT_SIGNAL` macro and
  `vstl::test::call`.
* `testRun` mirrors `vstl::test::run` (exception classification, the
  translation-handler chain and the unregistered-exception fallback),
  `runLoop` / `run` mirror `vstl::run`, `summary` mirrors `vstl::summary`
  and `get_exit_code` mirrors `vstl::get_exit_code`.

Only the signals for which `vstl::init` installs handlers are modelled
(SIGSEGV, SIGILL, SIGFPE, SIGABRT, SIGTERM, SIGALRM); a signal without an
installed handler never reaches the harness.  Wall-clock time is not
modelled: the expiry of an armed timer is represented by the delivery of
SIGALRM as an event of the body at the execution point where the timer
fires, which is exactly the information `vstl::handle_shared_signal` acts
on.  The faulting address printed by `vstl::print_signal` (from
`siginfo_t::si_addr`) is hardware-provided and not modelled, so the
rendered signal line elides the address suffix.
-/

namespace vstl

/-- Signals for which `vstl::init` installs `signal_handler`
(`catch_signal` calls at vstl.hpp:641,649-653).  SIGTRAP is set to
`SIG_IGN` and never reaches the handler. -/
inductive Sig
  | SIGSEGV
  | SIGILL
  | SIGFPE
  | SIGABRT
  | SIGTERM
  | SIGALRM
deriving DecidableEq, Repr

/-- Linux signal numbers, as compared by `handle_shared_signal` and
stringified by `get_signal_name`. -/
def sigToNat : Sig → Nat
  | .SIGSEGV => 11
  | .SIGILL => 4
  | .SIGFPE => 8
  | .SIGABRT => 6
  | .SIGTERM => 15
  | .SIGALRM => 14

/-- Numeric value of SIGALRM, used by the timeout branch of
`handle_shared_signal` (vstl.hpp:537). -/
def SIGALRM_code : Nat := 14

/-- Source `get_signal_name` (vstl.hpp:521-533), restricted to the POSIX
branch.  SIGTRAP (5) is included as in the source. -/
def get_signal_name (sig : Nat) : String :=
  if sig = 11 then "SIGSEGV"
  else if sig = 4 then "SIGILL"
  else if sig = 8 then "SIGFPE"
  else if sig = 6 then "SIGABRT"
  else if sig = 15 then "SIGTERM"
  else if sig = 5 then "SIGTRAP"
  else "unknown signal"

/-- The process-wide mutable state of namespace `vstl`
(vstl.hpp:321-342): the current test index, the three counters, the
expected-signal slot, the fail-on-alarm flag, and the armed one-shot
interval timer (`it_value` in milliseconds, 0 = disarmed). -/
structure St where
  index : Nat
  failed : Nat
  successful : Nat
  skipped : Nat
  fail_on_alarm : Bool
  expected_signal : Nat
  timer : Nat
deriving DecidableEq, Repr

/-- Initial values of the `vstl` globals (all zero / false). -/
def initialState : St :=
  { index := 0, failed := 0, successful := 0, skipped := 0,
    fail_on_alarm := false, expected_signal := 0, timer := 0 }

/-- Build-time configuration macros read by the harness
(vstl.hpp:136-163).  `VSTL_TRIGGER_DEBUGGER` only raises an ignored
SIGTRAP before an assertion throws and is not modelled. -/
structure Config where
  test_count : Nat
  use_ansi : Bool
  print_skip_reason : Bool
  print_success : Bool
  print_time : Bool
deriving DecidableEq, Repr

/-- The status words `VSTL_FAILED` / `VSTL_SKIPPED` / `VSTL_SUCCESSFUL`
(vstl.hpp:165-173). -/
def failedWord (cfg : Config) : String :=
  if cfg.use_ansi then "\x1b[31;1mfailed\x1b[0m" else "failed"

def skippedWord (cfg : Config) : String :=
  if cfg.use_ansi then "\x1b[33;1mskipped\x1b[0m" else "skipped"

def successfulWord (cfg : Config) : String :=
  if cfg.use_ansi then "\x1b[32;1msuccessful\x1b[0m" else "successful"

/-- Source `set_timeout` (vstl.hpp:348-371): sets `fail_on_alarm`
to `milliseconds != 0` and programs `ITIMER_REAL` with `it_value` =
`milliseconds` (0 disarms the timer). -/
def set_timeout (milliseconds : Nat) (s : St) : St :=
  { s with fail_on_alarm := milliseconds != 0, timer := milliseconds }

/-- What `handle_shared_signal` decides to do with a delivered signal. -/
inductive SigDecision
  | timeout
  | expectJump
  | defaultPrint
deriving DecidableEq, Repr

/-- Source `handle_shared_signal` (vstl.hpp:535-550).  The SIGALRM
timeout branch is checked first (prints the timeout line and returns
`false`, so `signal_handler` skips the default print and jumps to the
primary checkpoint); only then is the expected-signal slot compared, and
on a match the slot is cleared and control jumps to the `EXPECT_SIGNAL`
checkpoint; otherwise the default print happens. -/
def handle_shared_signal (sig : Nat) (s : St) : St × SigDecision :=
  if sig = SIGALRM_code ∧ s.fail_on_alarm = true then
    (s, .timeout)
  else if s.expected_signal = sig then
    ({ s with expected_signal := 0 }, .expectJump)
  else
    (s, .defaultPrint)

/-- Values a test body can `throw`, in the shapes distinguished by the
catch clauses of `vstl::test::run` (vstl.hpp:444-496): the intrinsic
`test_error` / `test_skip`, any other `std::exception`, and the primitive
shapes of the unregistered-exception fallback (`const char*`, `int`,
`long`, anything else). -/
inductive Thrown
  | testError (msg : String)
  | testSkip (msg : String)
  | stdExcept (msg : String)
  | charPtr (msg : String)
  | intVal (n : Int)
  | longVal (n : Int)
  | otherExc
deriving DecidableEq, Repr

/-- Primitive events of a test body.  `compute` is ordinary computation
with no harness-visible effect; `raiseSig` is the delivery of a handled
signal at this execution point (via `raise`, a hardware fault, or the
expiry of the armed `ITIMER_REAL` timer for SIGALRM); `throwExc` is a
C++ `throw`; `setTimeoutMs` is a call to `vstl::set_timeout`. -/
inductive Step
  | compute
  | raiseSig (s : Sig)
  | throwExc (e : Thrown)
  | setTimeoutMs (ms : Nat)
deriving DecidableEq, Repr

/-- Top-level items of a test body: a primitive step, or an
`EXPECT_SIGNAL(signum) { inner }` block (vstl.hpp:255-256).  `lit` is the
source text of the macro argument (stringified by `#signum` into the
failure message) and `line` the source line appended by `FAIL`.
The single global `expect_jmp` buffer does not support nesting, so inner
code is a list of primitive steps. -/
inductive Item
  | act (s : Step)
  | expectSig (sg : Sig) (lit : String) (line : Nat) (inner : List Step)
deriving DecidableEq, Repr

/-- How an invocation of a body is cut short: a C++ exception propagating
out of the test functor, or a `siglongjmp` to the primary checkpoint in
`vstl::run` — from the default signal print (`signaled`) or from the
timeout branch (`timeoutHit`).  `staleJump` marks the undefined behaviour
of `siglongjmp`-ing to the `expect_jmp` buffer of an `EXPECT_SIGNAL`
block whose frame is gone (provably unreachable: see
`runItems_no_staleJump`). -/
inductive Interrupt
  | thrown (e : Thrown)
  | signaled (s : Sig)
  | timeoutHit
  | staleJump
deriving DecidableEq, Repr

/-- Result of one primitive step executed inside an `EXPECT_SIGNAL`
block: fall through to the next step, `siglongjmp` to the block's own
checkpoint, or leave the invocation altogether. -/
inductive InnerRes
  | cont
  | jumped
  | interrupted (i : Interrupt)
deriving DecidableEq, Repr

/-- Effect of one primitive step, with the signal-handler semantics of
`vstl::signal_handler` (vstl.hpp:569-575): `handle_shared_signal` first;
the timeout branch and the default print both end in
`VSTL_JMP_SIG(jmp)` (abandoning the invocation), the expected-signal
match ends in `VSTL_JMP_SIG(expect_jmp)`. -/
def runInnerStep (st : Step) (s : St) : St × InnerRes :=
  match st with
  | .compute => (s, .cont)
  | .raiseSig sg =>
    match handle_shared_signal (sigToNat sg) s with
    | (s', .timeout) => (s', .interrupted .timeoutHit)
    | (s', .expectJump) => (s', .jumped)
    | (s', .defaultPrint) => (s', .interrupted (.signaled sg))
  | .throwExc e => (s, .interrupted (.thrown e))
  | .setTimeoutMs ms => (set_timeout ms s, .cont)

/-- Run the inner steps of an `EXPECT_SIGNAL` block in order;
`.cont` at the end means the block's code finished with no signal. -/
def runInner : List Step → St → St × InnerRes
  | [], s => (s, .cont)
  | st :: rest, s =>
    match runInnerStep st s with
    | (s', .cont) => runInner rest s'
    | (s', r) => (s', r)

/-- A primitive step at the top level of a body.  An `expectJump`
decision here would `siglongjmp` to a dead `expect_jmp` buffer —
undefined behaviour in the source, marked `staleJump` (unreachable, see
`runItems_no_staleJump`). -/
def runTopStep (st : Step) (s : St) : St × Option Interrupt :=
  match runInnerStep st s with
  | (s', .cont) => (s', none)
  | (s', .jumped) => (s', some .staleJump)
  | (s', .interrupted i) => (s', some i)

/-- One top-level item.  An `EXPECT_SIGNAL(signum)` block
(vstl.hpp:255-256) stores `signum` into `expected_signal`, sets the
`expect_jmp` checkpoint and runs the inner code; if the inner code
finishes without the signal, `FAIL("Expected signal " #signum)` throws a
`test_error` (note: the slot is NOT cleared on this path); if the handler
jumped to the checkpoint, execution resumes right after the block. -/
def runItem (it : Item) (s : St) : St × Option Interrupt :=
  match it with
  | .act st => runTopStep st s
  | .expectSig sg lit line inner =>
    let s1 := { s with expected_signal := sigToNat sg }
    match runInner inner s1 with
    | (s2, .cont) =>
      (s2, some (.thrown (.testError
        ("Expected signal " ++ lit ++ ", on line " ++ toString line ++ "!"))))
    | (s2, .jumped) => (s2, none)
    | (s2, .interrupted i) => (s2, some i)

/-- One invocation of a test body: run the items in order until one of
them leaves the invocation. -/
def runItems : List Item → St → St × Option Interrupt
  | [], s => (s, none)
  | it :: rest, s =>
    match runItem it s with
    | (s', none) => runItems rest s'
    | (s', some i) => (s', some i)

/-- The per-invocation reset at the top of the loop in `vstl::test::call`
(vstl.hpp:430-439): `set_timeout(0)` (disarming any pending alarm), then
`expected_signal = 0` and `fail_on_alarm = false`. -/
def resetForInvocation (s : St) : St :=
  { set_timeout 0 s with expected_signal := 0, fail_on_alarm := false }

/-- Source `vstl::test::call` (vstl.hpp:430-442): invoke the body `count`
times, resetting the per-invocation state before each invocation.  An
exception or a `siglongjmp` out of an invocation aborts the loop (the
remaining invocations never run). -/
def callLoop (body : List Item) : Nat → St → St × Option Interrupt
  | 0, s => (s, none)
  | Nat.succ n, s =>
    match runItems body (resetForInvocation s) with
    | (s1, none) => callLoop body n s1
    | (s1, some i) => (s1, some i)

/-- A registered test unit (`vstl::test`, vstl.hpp:418-504): a name and a
body. -/
structure TestU where
  name : String
  body : List Item
deriving DecidableEq, Repr

/-- A registered translation handler (`vstl::handler`, vstl.hpp:383-398):
user code that is fed the in-flight exception and may itself throw.  Its
result is what it throws (`none` = it returned normally). -/
def Handler : Type := Thrown → Option Thrown

/-- The classified result of one test-unit processing (what the harness
prints and counts): success, skip, a `test_error` failure (intrinsic
assertion or handler-translated), a `std::exception` failure, the
unregistered-exception fallback, a signal failure via the primary
checkpoint, a timeout failure via the primary checkpoint, or the
undefined-behaviour marker (unreachable, counted as a failure). -/
inductive Outcome
  | success
  | skippedO (reason : String)
  | failError (msg : String)
  | failException (msg : String)
  | failUnregistered (diag : String)
  | failSignal (s : Sig)
  | failTimeout
  | undefinedBehaviour
deriving DecidableEq, Repr

/-- The diagnostic extracted by the fallback catch cascade of
`vstl::test::run` (vstl.hpp:481-493): `const char*`, `int`, `long`,
anything else. -/
def fallbackDiag : Thrown → String
  | .charPtr m => "Error: " ++ m
  | .intVal n => "Error: (int) " ++ toString n
  | .longVal n => "Error: (long) " ++ toString n
  | _ => "Error: unknown"

/-- The translation-handler chain of `vstl::test::run` (vstl.hpp:470-493):
each registered handler is called in registration order on the in-flight
exception; the first one that throws a `test_error` determines the
failure and ends the loop; a handler that throws anything else, or
returns normally, is passed over; if no handler converts the error the
unregistered-exception fallback produces the diagnostic. -/
def classify (hs : List Handler) (e : Thrown) : Outcome :=
  match hs with
  | [] => .failUnregistered (fallbackDiag e)
  | h :: rest =>
    match h e with
    | some (.testError m) => .failError m
    | _ => classify rest e

/-- Does the thrown value match one of the catch clauses that precede
`catch (...)` in `vstl::test::run` (`test_skip`, `test_error`,
`std::exception`)? -/
def intrinsicThrown : Thrown → Bool
  | .testError _ => true
  | .testSkip _ => true
  | .stdExcept _ => true
  | _ => false

/-- Source `vstl::test::run` (vstl.hpp:444-502) together with the
`siglongjmp` paths that bypass it: `call(VSTL_TEST_COUNT)` is invoked;
a `test_skip` increments `skipped` and yields a skip; a `test_error` /
`std::exception` yields the corresponding failure; any other exception
goes through the translation-handler chain; a signal or timeout
`siglongjmp`s to the primary checkpoint in `vstl::run` and is carried
here as the corresponding outcome. -/
def testRun (cfg : Config) (hs : List Handler) (u : TestU) (s : St) :
    St × Outcome :=
  match callLoop u.body cfg.test_count s with
  | (s', none) => (s', .success)
  | (s', some (.thrown (.testSkip r))) =>
    ({ s' with skipped := s'.skipped + 1 }, .skippedO r)
  | (s', some (.thrown (.testError m))) => (s', .failError m)
  | (s', some (.thrown (.stdExcept m))) => (s', .failException m)
  | (s', some (.thrown e)) => (s', classify hs e)
  | (s', some (.signaled sg)) => (s', .failSignal sg)
  | (s', some .timeoutHit) => (s', .failTimeout)
  | (s', some .staleJump) => (s', .undefinedBehaviour)

/-- Outcomes counted through the failure branches of the loop in
`vstl::run` (the `VSTL_JMP_SET(jmp)` branch or `!test.run(out)`);
`success` and a skip return `true` from `test::run` and are counted
successful. -/
def outcomeFails : Outcome → Bool
  | .success => false
  | .skippedO _ => false
  | _ => true

/-- The per-test console lines, as printed by `vstl::test::run`
(vstl.hpp:447-501) and, for the signal / timeout paths, by
`vstl::handle_shared_signal` (vstl.hpp:538) and `vstl::print_signal`
(vstl.hpp:565-567).  The faulting-address suffix of `print_signal` is
hardware-provided and elided here. -/
def renderOutcome (cfg : Config) (name : String) (o : Outcome) :
    List String :=
  match o with
  | .success =>
    if cfg.print_success then
      ["Test '" ++ name ++ "' " ++ successfulWord cfg ++ "!"]
    else []
  | .skippedO r =>
    ["Test '" ++ name ++ "' " ++ skippedWord cfg ++ "!"
      ++ (if cfg.print_skip_reason then " " ++ r else "")]
  | .failError m =>
    ["Test '" ++ name ++ "' " ++ failedWord cfg ++ "! Error: " ++ m]
  | .failException m =>
    ["Test '" ++ name ++ "' " ++ failedWord cfg ++ "! Exception: " ++ m]
  | .failUnregistered d =>
    ["Test '" ++ name ++ "' " ++ failedWord cfg
      ++ "! Unregistered exception thrown! " ++ d]
  | .failSignal sg =>
    ["Test '" ++ name ++ "' " ++ failedWord cfg ++ "! Error: Received "
      ++ get_signal_name (sigToNat sg) ++ " (#" ++ toString (sigToNat sg)
      ++ ")!"]
  | .failTimeout =>
    ["Test '" ++ name ++ "' " ++ failedWord cfg ++ "! Timeout reached!"]
  | .undefinedBehaviour => []

/-- One iteration of the loop of `vstl::run` (vstl.hpp:666-687):
establish the checkpoint and process one unit; a signal arriving at the
checkpoint or a `false` return from `test::run` increments `failed`,
otherwise `successful` is incremented; `index` advances either way. -/
def schedStep (cfg : Config) (hs : List Handler) (u : TestU) (s : St) :
    St × Outcome :=
  let p := testRun cfg hs u s
  let s2 :=
    if outcomeFails p.2 then { p.1 with failed := p.1.failed + 1 }
    else { p.1 with successful := p.1.successful + 1 }
  ({ s2 with index := s2.index + 1 }, p.2)

/-- The loop of `vstl::run` (vstl.hpp:666-687): each registered unit is
processed by `schedStep` in order, and the loop proceeds to the next
unit regardless of the outcome. -/
def runLoop (cfg : Config) (hs : List Handler) :
    List TestU → St → St × List String
  | [], s => (s, [])
  | u :: rest, s =>
    let p := schedStep cfg hs u s
    let q := runLoop cfg hs rest p.1
    (q.1, renderOutcome cfg u.name p.2 ++ q.2)

/-- Source `vstl::summary` (vstl.hpp:586-599): `executed` is
`failed + successful`, the displayed succeeded count is
`successful - skipped`, and the elapsed time is appended only under
`VSTL_PRINT_TIME`.  `timeMsg` stands for the measured wall-clock
milliseconds, which are not modelled. -/
def summaryDisplay (cfg : Config) (executed failedCount succeededCount : Nat)
    (timeMsg : String) : String :=
  "Executed " ++ toString executed ++ " "
    ++ (if executed = 1 then "test" else "tests") ++ ", "
    ++ toString failedCount ++ " failed, "
    ++ toString succeededCount ++ " succeeded."
    ++ (if cfg.print_time then " (time: " ++ timeMsg ++ "ms)" else "")

def summary (cfg : Config) (s : St) (timeMsg : String) : String :=
  summaryDisplay cfg (s.failed + s.successful) s.failed
    (s.successful - s.skipped) timeMsg

/-- Source `vstl::run` (vstl.hpp:658-690): reset `index` and the three
counters, run the loop over all registered units, and append the summary
line. -/
def run (cfg : Config) (hs : List Handler) (ts : List TestU) (s : St)
    (timeMsg : String) : St × List String :=
  let s0 := { s with index := 0, successful := 0, failed := 0, skipped := 0 }
  let p := runLoop cfg hs ts s0
  (p.1, p.2 ++ [summary cfg p.1 timeMsg])

/-- Source `vstl::get_exit_code` (vstl.hpp:693-695):
`failed != 0 ? 1 : 0`. -/
def get_exit_code (s : St) : Nat :=
  if s.failed != 0 then 1 else 0

/-- Source `main` (vstl.hpp:744-748): `init`, `run`, then
`get_exit_code` as the process exit status. -/
def mainExit (cfg : Config) (hs : List Handler) (ts : List TestU)
    (timeMsg : String) : Nat :=
  get_exit_code (run cfg hs ts initialState timeMsg).1

/-! Concrete fixtures used by the witnesses: a plain configuration
(ANSI colouring off, otherwise the VSTL defaults) and a handful of
small test units. -/

/-- The VSTL default configuration with `VSTL_USE_ANSI` off. -/
def cfgPlain : Config :=
  { test_count := 1, use_ansi := false, print_skip_reason := false,
    print_success := true, print_time := true }

def uPass : TestU := { name := "pass", body := [.act .compute] }

def uSegv : TestU := { name := "segv", body := [.act (.raiseSig .SIGSEGV)] }

def uSkipT : TestU :=
  { name := "skippy", body := [.act (.throwExc (.testSkip "because"))] }

def uExpectOk : TestU :=
  { name := "expect_ok",
    body := [.expectSig .SIGSEGV "SIGSEGV" 10 [.compute, .raiseSig .SIGSEGV],
      .act .compute] }

def uExpectNone : TestU :=
  { name := "expect_none", body := [.expectSig .SIGSEGV "SIGSEGV" 20 [.compute]] }

def uExpectDiff : TestU :=
  { name := "expect_diff",
    body := [.expectSig .SIGSEGV "SIGSEGV" 30 [.raiseSig .SIGILL]] }

def uTimeout : TestU :=
  { name := "slow",
    body := [.act (.setTimeoutMs 100), .act .compute,
      .act (.raiseSig .SIGALRM)] }

def uThrowChar : TestU :=
  { name := "str_thrower", body := [.act (.throwExc (.charPtr "boom"))] }

/-- A translation handler converting `const char*` errors, as in the
HANDLER / CATCH_PTR example of vstl.hpp:117-121. -/
def hChar : Handler := fun e =>
  match e with
  | .charPtr m => some (.testError ("Custom " ++ m))
  | _ => none

/-- A translation handler that itself throws an unrelated error. -/
def hBad : Handler := fun _ => some .otherExc

/-- A translation handler that returns without converting anything. -/
def hSilent : Handler := fun _ => none

/-- State left dirty by an `EXPECT_SIGNAL(SIGSEGV)` block that raised no
signal: the slot is still 11 and a timer is still armed. -/
def dirtySt : St :=
  { initialState with expected_signal := 11, fail_on_alarm := true, timer := 50 }

/-- State inside an `EXPECT_SIGNAL(SIGALRM)` block right after its inner
code armed a 100 ms timeout. -/
def armedSt : St :=
  { initialState with expected_signal := 14, fail_on_alarm := true, timer := 100 }

/-- Substring test used to state the "message contains" wording of the
specification: `leadsWith needle hay` checks that `needle` is an initial
segment of `hay`, and `containsSeq needle hay` that `needle` occurs
contiguously somewhere inside `hay`. -/
def leadsWith : List Char → List Char → Bool
  | [], _ => true
  | _ :: _, [] => false
  | a :: as, b :: bs => a == b && leadsWith as bs

def containsSeq (needle : List Char) : List Char → Bool
  | [] => leadsWith needle []
  | c :: rest => leadsWith needle (c :: rest) || containsSeq needle rest

/-! Invariant lemmas: a test body never touches the scheduler's counters,
and the expected-signal slot is 0 whenever control is at the top level of
a body, so the stale-checkpoint jump (undefined behaviour in the source)
is unreachable. -/

/-- Agreement on the four counters owned by the scheduler. -/
def sameCounters (a b : St) : Prop :=
  a.failed = b.failed ∧ a.successful = b.successful ∧
  a.skipped = b.skipped ∧ a.index = b.index

lemma sameCounters_refl (s : St) : sameCounters s s := by
  simp [sameCounters]

lemma sameCounters_trans {a b c : St} (h1 : sameCounters a b)
    (h2 : sameCounters b c) : sameCounters a c := by
  obtain ⟨x1, x2, x3, x4⟩ := h1
  obtain ⟨y1, y2, y3, y4⟩ := h2
  exact ⟨x1.trans y1, x2.trans y2, x3.trans y3, x4.trans y4⟩

lemma handle_counts (sig : Nat) (s : St) :
    sameCounters (handle_shared_signal sig s).1 s := by
  unfold handle_shared_signal
  split
  · exact sameCounters_refl s
  · split <;> simp [sameCounters]

lemma set_timeout_counts (ms : Nat) (s : St) :
    sameCounters (set_timeout ms s) s := by
  simp [set_timeout, sameCounters]

lemma reset_counts (s : St) : sameCounters (resetForInvocation s) s := by
  simp [resetForInvocation, set_timeout, sameCounters]

lemma runInnerStep_counts (st : Step) (s : St) :
    sameCounters (runInnerStep st s).1 s := by
  cases st with
  | compute => exact sameCounters_refl s
  | throwExc e => exact sameCounters_refl s
  | setTimeoutMs ms => exact set_timeout_counts ms s
  | raiseSig sg =>
    have h := handle_counts (sigToNat sg) s
    rcases hh : handle_shared_signal (sigToNat sg) s with ⟨s1, d⟩
    rw [hh] at h
    cases d <;> simpa [runInnerStep, hh] using h

lemma runInner_counts (xs : List Step) (s : St) :
    sameCounters (runInner xs s).1 s := by
  induction xs generalizing s with
  | nil => exact sameCounters_refl s
  | cons st rest ih =>
    have h := runInnerStep_counts st s
    rcases hh : runInnerStep st s with ⟨s1, r⟩
    rw [hh] at h
    cases r with
    | cont =>
      simpa [runInner, hh] using sameCounters_trans (ih s1) h
    | jumped => simpa [runInner, hh] using h
    | interrupted i => simpa [runInner, hh] using h

lemma runTopStep_counts (st : Step) (s : St) :
    sameCounters (runTopStep st s).1 s := by
  have h := runInnerStep_counts st s
  rcases hh : runInnerStep st s with ⟨s1, r⟩
  rw [hh] at h
  cases r <;> simpa [runTopStep, hh] using h

lemma runItem_counts (it : Item) (s : St) :
    sameCounters (runItem it s).1 s := by
  cases it with
  | act st => exact runTopStep_counts st s
  | expectSig sg lit line inner =>
    have h := runInner_counts inner { s with expected_signal := sigToNat sg }
    have h0 : sameCounters { s with expected_signal := sigToNat sg } s := by
      simp [sameCounters]
    rcases hh : runInner inner { s with expected_signal := sigToNat sg }
      with ⟨s2, r⟩
    rw [hh] at h
    cases r <;> simpa [runItem, hh] using sameCounters_trans h h0

lemma runItems_counts (items : List Item) (s : St) :
    sameCounters (runItems items s).1 s := by
  induction items generalizing s with
  | nil => exact sameCounters_refl s
  | cons it rest ih =>
    have h := runItem_counts it s
    rcases hh : runItem it s with ⟨s1, r⟩
    rw [hh] at h
    cases r with
    | none => simpa [runItems, hh] using sameCounters_trans (ih s1) h
    | some i => simpa [runItems, hh] using h

lemma callLoop_counts (body : List Item) (n : Nat) (s : St) :
    sameCounters (callLoop body n s).1 s := by
  induction n generalizing s with
  | zero => exact sameCounters_refl s
  | succ m ih =>
    have h := sameCounters_trans
      (runItems_counts body (resetForInvocation s)) (reset_counts s)
    rcases hh : runItems body (resetForInvocation s) with ⟨s1, r⟩
    rw [hh] at h
    cases r with
    | none => simpa [callLoop, hh] using sameCounters_trans (ih s1) h
    | some i => simpa [callLoop, hh] using h

lemma sigToNat_ne_zero (sg : Sig) : sigToNat sg ≠ 0 := by
  cases sg <;> simp [sigToNat]

lemma handle_expectJump_expected {sig : Nat} {s s1 : St}
    (h : handle_shared_signal sig s = (s1, .expectJump)) :
    s1.expected_signal = 0 := by
  unfold handle_shared_signal at h
  split at h
  · exact absurd (congrArg Prod.snd h) (by simp)
  · split at h
    · cases h
      rfl
    · exact absurd (congrArg Prod.snd h) (by simp)

lemma runInnerStep_jumped_expected {st : Step} {s s1 : St}
    (h : runInnerStep st s = (s1, .jumped)) : s1.expected_signal = 0 := by
  cases st with
  | compute => exact absurd (congrArg Prod.snd h) (by simp [runInnerStep])
  | throwExc e => exact absurd (congrArg Prod.snd h) (by simp [runInnerStep])
  | setTimeoutMs ms =>
    exact absurd (congrArg Prod.snd h) (by simp [runInnerStep])
  | raiseSig sg =>
    rcases hh : handle_shared_signal (sigToNat sg) s with ⟨s2, d⟩
    cases d with
    | timeout => rw [runInnerStep, hh] at h; exact absurd h (by simp)
    | expectJump =>
      rw [runInnerStep, hh] at h
      cases h
      exact handle_expectJump_expected hh
    | defaultPrint => rw [runInnerStep, hh] at h; exact absurd h (by simp)

lemma runInner_jumped_expected {xs : List Step} {s s1 : St}
    (h : runInner xs s = (s1, .jumped)) : s1.expected_signal = 0 := by
  induction xs generalizing s with
  | nil => exact absurd (congrArg Prod.snd h) (by simp [runInner])
  | cons st rest ih =>
    rcases hh : runInnerStep st s with ⟨s2, r⟩
    cases r with
    | cont =>
      rw [runInner, hh] at h
      exact ih h
    | jumped =>
      rw [runInner, hh] at h
      cases h
      exact runInnerStep_jumped_expected hh
    | interrupted i =>
      rw [runInner, hh] at h
      cases h

lemma runInnerStep_not_stale {st : Step} {s s1 : St}
    (h : runInnerStep st s = (s1, .interrupted .staleJump)) : False := by
  cases st with
  | compute => exact absurd (congrArg Prod.snd h) (by simp [runInnerStep])
  | throwExc e => exact absurd (congrArg Prod.snd h) (by simp [runInnerStep])
  | setTimeoutMs ms =>
    exact absurd (congrArg Prod.snd h) (by simp [runInnerStep])
  | raiseSig sg =>
    rcases hh : handle_shared_signal (sigToNat sg) s with ⟨s2, d⟩
    cases d <;> rw [runInnerStep, hh] at h <;> exact absurd h (by simp)

lemma runInner_not_stale {xs : List Step} {s s1 : St}
    (h : runInner xs s = (s1, .interrupted .staleJump)) : False := by
  induction xs generalizing s with
  | nil => exact absurd (congrArg Prod.snd h) (by simp [runInner])
  | cons st rest ih =>
    rcases hh : runInnerStep st s with ⟨s2, r⟩
    cases r with
    | cont =>
      rw [runInner, hh] at h
      exact ih h
    | jumped =>
      rw [runInner, hh] at h
      cases h
    | interrupted i =>
      rw [runInner, hh] at h
      cases h
      exact runInnerStep_not_stale hh

lemma runInnerStep_expected_zero {st : Step} {s : St}
    (h0 : s.expected_signal = 0) :
    ((runInnerStep st s).2 ≠ .jumped) ∧
    ((runInnerStep st s).2 = .cont →
      (runInnerStep st s).1.expected_signal = 0) := by
  cases st with
  | compute => exact ⟨by simp [runInnerStep], fun _ => h0⟩
  | throwExc e => exact ⟨by simp [runInnerStep], by simp [runInnerStep]⟩
  | setTimeoutMs ms =>
    exact ⟨by simp [runInnerStep], fun _ => by
      simpa [runInnerStep, set_timeout] using h0⟩
  | raiseSig sg =>
    rcases hh : handle_shared_signal (sigToNat sg) s with ⟨s2, d⟩
    cases d with
    | timeout => simp [runInnerStep, hh]
    | expectJump =>
      exfalso
      unfold handle_shared_signal at hh
      split at hh
      · exact absurd (congrArg Prod.snd hh) (by simp)
      · split at hh
        · next hc =>
          rw [h0] at hc
          exact sigToNat_ne_zero sg hc.symm
        · exact absurd (congrArg Prod.snd hh) (by simp)
    | defaultPrint => simp [runInnerStep, hh]

lemma runItem_expected_zero {it : Item} {s : St}
    (h0 : s.expected_signal = 0) :
    ((runItem it s).2 ≠ some .staleJump) ∧
    ((runItem it s).2 = none → (runItem it s).1.expected_signal = 0) := by
  cases it with
  | act st =>
    have h := @runInnerStep_expected_zero st s h0
    rcases hh : runInnerStep st s with ⟨s1, r⟩
    rw [hh] at h
    cases r with
    | cont =>
      refine ⟨by simp [runItem, runTopStep, hh], fun _ => ?_⟩
      simpa [runItem, runTopStep, hh] using h.2 rfl
    | jumped => exact absurd rfl h.1
    | interrupted i =>
      cases i with
      | staleJump => exact absurd (runInnerStep_not_stale hh) id
      | thrown e => simp [runItem, runTopStep, hh]
      | signaled sg => simp [runItem, runTopStep, hh]
      | timeoutHit => simp [runItem, runTopStep, hh]
  | expectSig sg lit line inner =>
    rcases hh : runInner inner { s with expected_signal := sigToNat sg }
      with ⟨s2, r⟩
    cases r with
    | cont => simp [runItem, hh]
    | jumped =>
      refine ⟨by simp [runItem, hh], fun _ => ?_⟩
      simpa [runItem, hh] using runInner_jumped_expected hh
    | interrupted i =>
      cases i with
      | staleJump => exact absurd (runInner_not_stale hh) id
      | thrown e => simp [runItem, hh]
      | signaled sg2 => simp [runItem, hh]
      | timeoutHit => simp [runItem, hh]

lemma runItems_no_staleJump {items : List Item} {s : St}
    (h0 : s.expected_signal = 0) :
    ((runItems items s).2 ≠ some .staleJump) ∧
    ((runItems items s).2 = none →
      (runItems items s).1.expected_signal = 0) := by
  induction items generalizing s with
  | nil => exact ⟨by simp [runItems], fun _ => h0⟩
  | cons it rest ih =>
    have h := @runItem_expected_zero it s h0
    rcases hh : runItem it s with ⟨s1, r⟩
    rw [hh] at h
    cases r with
    | none =>
      have h1 : s1.expected_signal = 0 := h.2 rfl
      have := ih h1
      simpa [runItems, hh] using this
    | some i =>
      refine ⟨?_, by simp [runItems, hh]⟩
      simpa [runItems, hh] using h.1

lemma callLoop_no_stale (body : List Item) (n : Nat) (s : St) :
    (callLoop body n s).2 ≠ some .staleJump := by
  induction n generalizing s with
  | zero => simp [callLoop]
  | succ m ih =>
    have h0 : (resetForInvocation s).expected_signal = 0 := rfl
    have h := @runItems_no_staleJump body (resetForInvocation s) h0
    rcases hh : runItems body (resetForInvocation s) with ⟨s1, r⟩
    rw [hh] at h
    cases r with
    | none => simpa [callLoop, hh] using ih s1
    | some i =>
      refine ?_
      simpa [callLoop, hh] using h.1

lemma classify_ne_ub (hs : List Handler) (e : Thrown) :
    classify hs e ≠ .undefinedBehaviour := by
  induction hs with
  | nil => cases e <;> simp [classify, fallbackDiag]
  | cons h rest ih =>
    unfold classify
    rcases hh : h e with _ | e2
    · simp only [hh]
      exact ih
    · cases e2 <;> simp only [hh] <;> first | exact ih | simp

lemma testRun_no_ub (cfg : Config) (hs : List Handler) (u : TestU)
    (s : St) : (testRun cfg hs u s).2 ≠ .undefinedBehaviour := by
  have h := callLoop_no_stale u.body cfg.test_count s
  rcases hh : callLoop u.body cfg.test_count s with ⟨s1, r⟩
  rw [hh] at h
  cases r with
  | none => simp [testRun, hh]
  | some i =>
    cases i with
    | staleJump => exact absurd rfl h
    | thrown e => cases e <;> simp [testRun, hh, classify_ne_ub]
    | signaled sg => simp [testRun, hh]
    | timeoutHit => simp [testRun, hh]

lemma testRun_counts (cfg : Config) (hs : List Handler) (u : TestU)
    (s : St) :
    (testRun cfg hs u s).1.failed = s.failed ∧
    (testRun cfg hs u s).1.successful = s.successful ∧
    (testRun cfg hs u s).1.index = s.index := by
  have h := callLoop_counts u.body cfg.test_count s
  rcases hh : callLoop u.body cfg.test_count s with ⟨s1, r⟩
  rw [hh] at h
  obtain ⟨h1, h2, h3, h4⟩ := h
  simp only [] at h1 h2 h3 h4
  cases r with
  | none => exact ⟨by simp [testRun, hh, h1], by simp [testRun, hh, h2],
      by simp [testRun, hh, h4]⟩
  | some i =>
    cases i with
    | thrown e =>
      cases e <;>
        exact ⟨by simp [testRun, hh, h1], by simp [testRun, hh, h2],
          by simp [testRun, hh, h4]⟩
    | signaled sg => exact ⟨by simp [testRun, hh, h1],
        by simp [testRun, hh, h2], by simp [testRun, hh, h4]⟩
    | timeoutHit => exact ⟨by simp [testRun, hh, h1],
        by simp [testRun, hh, h2], by simp [testRun, hh, h4]⟩
    | staleJump => exact ⟨by simp [testRun, hh, h1],
        by simp [testRun, hh, h2], by simp [testRun, hh, h4]⟩

lemma runInner_append (a b : List Step) (s : St) :
    runInner (a ++ b) s =
      (match runInner a s with
        | (s1, .cont) => runInner b s1
        | (s1, .jumped) => (s1, .jumped)
        | (s1, .interrupted i) => (s1, .interrupted i)) := by
  induction a generalizing s with
  | nil => simp [runInner]
  | cons st rest ih =>
    rcases hh : runInnerStep st s with ⟨s1, r⟩
    cases r with
    | cont => simp [runInner, hh, ih]
    | jumped => simp [runInner, hh]
    | interrupted i => simp [runInner, hh]

lemma runInner_cont_expected {xs : List Step} {s s1 : St}
    (h : runInner xs s = (s1, .cont)) :
    s1.expected_signal = s.expected_signal := by
  induction xs generalizing s with
  | nil =>
    rw [runInner] at h
    cases h
    rfl
  | cons st rest ih =>
    cases st with
    | compute =>
      rw [runInner] at h
      exact ih h
    | throwExc e =>
      rw [runInner] at h
      simp [runInnerStep] at h
    | setTimeoutMs ms =>
      rw [runInner] at h
      have := ih h
      simpa [set_timeout] using this
    | raiseSig sg =>
      rcases hh : handle_shared_signal (sigToNat sg) s with ⟨s2, d⟩
      cases d <;> rw [runInner] at h <;>
        simp only [runInnerStep, hh] at h <;> cases h

lemma sigToNat_inj {a b : Sig} (h : sigToNat a = sigToNat b) : a = b := by
  cases a <;> cases b <;> first | rfl | simp [sigToNat] at h

lemma sigToNat_eq_alarm {sg : Sig} (h : sg ≠ .SIGALRM) :
    sigToNat sg ≠ SIGALRM_code := by
  cases sg <;> first
  | exact absurd rfl h
  | simp [sigToNat, SIGALRM_code]

lemma schedStep_exclusive (cfg : Config) (hs : List Handler) (u : TestU)
    (s : St) :
    ((schedStep cfg hs u s).1.failed = s.failed + 1 ∧
      (schedStep cfg hs u s).1.successful = s.successful) ∨
    ((schedStep cfg hs u s).1.failed = s.failed ∧
      (schedStep cfg hs u s).1.successful = s.successful + 1) := by
  obtain ⟨h1, h2, h3⟩ := testRun_counts cfg hs u s
  rcases hh : testRun cfg hs u s with ⟨s1, o⟩
  rw [hh] at h1 h2
  simp only [] at h1 h2
  by_cases ho : outcomeFails o = true
  · exact Or.inl (by simp [schedStep, hh, ho, h1, h2])
  · exact Or.inr (by simp [schedStep, hh, ho, h1, h2])

lemma runLoop_counts_sum (cfg : Config) (hs : List Handler)
    (ts : List TestU) (s : St) :
    (runLoop cfg hs ts s).1.failed + (runLoop cfg hs ts s).1.successful =
      s.failed + s.successful + ts.length := by
  induction ts generalizing s with
  | nil => simp [runLoop]
  | cons u rest ih =>
    have h := schedStep_exclusive cfg hs u s
    rcases hh : schedStep cfg hs u s with ⟨s1, o⟩
    rw [hh] at h
    simp only [] at h
    have hrec := ih s1
    rcases h with ⟨h1, h2⟩ | ⟨h1, h2⟩ <;>
      simp [runLoop, hh, hrec, h1, h2] <;> omega

/-- C4: the process exit status (`vstl::get_exit_code`, returned by
`main`) is 0 exactly when the failed counter is 0 at the end of the run,
and is 1 whenever at least one unit failed, regardless of how many. -/
theorem claim_C4 :
    (∀ s : St,
      (get_exit_code s = 0 ↔ s.failed = 0) ∧
      (s.failed ≠ 0 → get_exit_code s = 1)) ∧
    (∀ (cfg : Config) (hs : List Handler) (ts : List TestU) (t : String),
      (mainExit cfg hs ts t = 0 ↔ (run cfg hs ts initialState t).1.failed = 0) ∧
      ((run cfg hs ts initialState t).1.failed ≠ 0 →
        mainExit cfg hs ts t = 1)) := by
  have hbase : ∀ s : St,
      (get_exit_code s = 0 ↔ s.failed = 0) ∧
      (s.failed ≠ 0 → get_exit_code s = 1) := by
    intro s
    by_cases h : s.failed = 0 <;> simp [get_exit_code, h]
  exact ⟨hbase, fun cfg hs ts t => hbase (run cfg hs ts initialState t).1⟩

/-- C4 witness: evaluated on a run of two concrete units with one
failure, and on a run of one passing unit. -/
theorem claim_C4_witness :
    mainExit cfgPlain [] [uSegv, uPass] "7" = 1 ∧
    mainExit cfgPlain [] [uPass] "7" = 0 := by
  constructor
  · exact (claim_C4.2 cfgPlain [] [uSegv, uPass] "7").2 (by decide)
  · exact (claim_C4.2 cfgPlain [] [uPass] "7").1.mpr (by decide)

/-- C5: every scheduler iteration increments exactly one of the failed
or successful counters by exactly one, so at the end of a run
`failed + successful` equals the number of registered units (the
summary's executed count) and, with zero failures, `successful` equals
that number; the summary line displays `executed = failed + successful`. -/
theorem claim_C5 :
    (∀ (cfg : Config) (hs : List Handler) (u : TestU) (s : St),
      ((schedStep cfg hs u s).1.failed = s.failed + 1 ∧
        (schedStep cfg hs u s).1.successful = s.successful) ∨
      ((schedStep cfg hs u s).1.failed = s.failed ∧
        (schedStep cfg hs u s).1.successful = s.successful + 1)) ∧
    (∀ (cfg : Config) (hs : List Handler) (ts : List TestU) (s : St)
        (t : String),
      (run cfg hs ts s t).1.failed + (run cfg hs ts s t).1.successful =
        ts.length ∧
      ((run cfg hs ts s t).1.failed = 0 →
        (run cfg hs ts s t).1.successful = ts.length)) ∧
    (∀ (cfg : Config) (s : St) (t : String),
      summary cfg s t =
        summaryDisplay cfg (s.failed + s.successful) s.failed
          (s.successful - s.skipped) t) := by
  refine ⟨schedStep_exclusive, fun cfg hs ts s t => ?_, fun _ _ _ => rfl⟩
  have h := runLoop_counts_sum cfg hs ts
    { s with index := 0, successful := 0, failed := 0, skipped := 0 }
  constructor
  · simpa [run] using h
  · intro h0
    have hsum : (run cfg hs ts s t).1.failed +
        (run cfg hs ts s t).1.successful = ts.length := by
      simpa [run] using h
    omega

/-- C5 witness: evaluated on a concrete three-unit run (one signal
failure, one pass, one skip) and on an all-passing two-unit run. -/
theorem claim_C5_witness :
    ((run cfgPlain [] [uSegv, uPass, uSkipT] initialState "7").1.failed +
      (run cfgPlain [] [uSegv, uPass, uSkipT] initialState "7").1.successful = 3) ∧
    (run cfgPlain [] [uPass, uExpectOk] initialState "7").1.successful = 2 := by
  constructor
  · exact (claim_C5.2.1 cfgPlain [] [uSegv, uPass, uSkipT] initialState "7").1
  · exact (claim_C5.2.1 cfgPlain [] [uPass, uExpectOk] initialState "7").2 (by decide)

/-- C9: the per-invocation reset of `vstl::test::call` clears the
expected-signal slot, the fail-on-alarm flag and the armed timer before
every invocation of a unit body (including every repetition), and with
the slot at 0 no delivered signal is ever treated as expected — even
though an `EXPECT_SIGNAL` block that completes without its signal leaves
the slot armed. -/
theorem claim_C9 :
    (∀ s : St,
      (resetForInvocation s).expected_signal = 0 ∧
      (resetForInvocation s).fail_on_alarm = false ∧
      (resetForInvocation s).timer = 0) ∧
    (∀ (body : List Item) (n : Nat) (s : St),
      callLoop body (n + 1) s =
        (match runItems body (resetForInvocation s) with
          | (s1, none) => callLoop body n s1
          | (s1, some i) => (s1, some i))) ∧
    (∀ (sg : Sig) (s : St), s.expected_signal = 0 →
      (handle_shared_signal (sigToNat sg) s).2 ≠ .expectJump) ∧
    (∀ (sg : Sig) (lit : String) (line : Nat) (s : St),
      runItem (.expectSig sg lit line []) s =
        ({ s with expected_signal := sigToNat sg },
          some (.thrown (.testError
            ("Expected signal " ++ lit ++ ", on line " ++ toString line
              ++ "!"))))) := by
  refine ⟨fun s => ⟨rfl, rfl, rfl⟩, fun body n s => rfl, ?_, fun sg lit line s => rfl⟩
  intro sg s h0
  unfold handle_shared_signal
  split
  · simp
  · rw [if_neg]
    · simp
    · rw [h0]
      exact fun hc => sigToNat_ne_zero sg hc.symm

/-- C9 witness: evaluated at a state left dirty by a completed
`EXPECT_SIGNAL(SIGSEGV)` block (slot = 11, timer armed). -/
theorem claim_C9_witness :
    (resetForInvocation dirtySt).expected_signal = 0 ∧
    (handle_shared_signal (sigToNat .SIGSEGV)
        (resetForInvocation dirtySt)).2 ≠ .expectJump := by
  constructor
  · exact (claim_C9.1 dirtySt).1
  · exact claim_C9.2.2.1 .SIGSEGV (resetForInvocation dirtySt) (by decide)

/-- C10: when the fail-on-alarm flag is armed, a delivered SIGALRM is
classified as a timeout before the expected-signal slot is even
consulted, so even inside an `EXPECT_SIGNAL(SIGALRM)` block the unit
fails as a timeout instead of the expectation being satisfied. -/
theorem claim_C10 :
    (∀ s : St, s.fail_on_alarm = true →
      handle_shared_signal SIGALRM_code s = (s, .timeout)) ∧
    (∀ s : St, s.fail_on_alarm = true →
      s.expected_signal = sigToNat .SIGALRM →
      handle_shared_signal (sigToNat .SIGALRM) s = (s, .timeout)) ∧
    (∀ (lit : String) (line : Nat) (ipre irest : List Step) (s s1 : St),
      runInner ipre { s with expected_signal := sigToNat .SIGALRM } =
        (s1, .cont) →
      s1.fail_on_alarm = true →
      runItem (.expectSig .SIGALRM lit line
          (ipre ++ .raiseSig .SIGALRM :: irest)) s =
        (s1, some .timeoutHit)) := by
  have halarm : ∀ s : St, s.fail_on_alarm = true →
      handle_shared_signal SIGALRM_code s = (s, .timeout) := by
    intro s h
    unfold handle_shared_signal
    rw [if_pos ⟨rfl, h⟩]
  refine ⟨halarm, fun s h _ => halarm s h, ?_⟩
  intro lit line ipre irest s s1 hpre hflag
  have h14 : sigToNat Sig.SIGALRM = SIGALRM_code := rfl
  have hstep : runInnerStep (.raiseSig .SIGALRM) s1 =
      (s1, .interrupted .timeoutHit) := by
    simp only [runInnerStep, h14, halarm s1 hflag]
  have hrest : runInner (Step.raiseSig .SIGALRM :: irest) s1 =
      (s1, .interrupted .timeoutHit) := by
    simp only [runInner, hstep]
  simp only [runItem, runInner_append, hpre, hrest]

/-- C10 witness: a concrete `EXPECT_SIGNAL(SIGALRM)` block whose inner
code arms a 100 ms timeout and is then hit by SIGALRM. -/
theorem claim_C10_witness :
    runItem (.expectSig .SIGALRM "SIGALRM" 40
        ([.setTimeoutMs 100] ++ .raiseSig .SIGALRM :: []))
      initialState = (armedSt, some .timeoutHit) := by
  exact claim_C10.2.2 "SIGALRM" 40 [.setTimeoutMs 100] [] initialState
    armedSt (by decide) (by decide)

/-- C1: a fatal signal (SIGSEGV, SIGILL, SIGFPE, SIGABRT or SIGTERM)
delivered while a unit's body executes and not matching an active
expectation aborts only that unit: the interrupted invocation's result
stands regardless of the remaining repetition count (the body is not
re-invoked), the unit is classified as a signal failure, the scheduler
counts exactly one failure for it, and the loop continues through all
subsequent units — the run itself never ends because of the signal. -/
theorem claim_C1 :
    (∀ (body : List Item) (n : Nat) (s s2 : St) (i : Interrupt),
      runItems body (resetForInvocation s) = (s2, some i) →
      callLoop body (n + 1) s = (s2, some i)) ∧
    (∀ (cfg : Config) (hs : List Handler) (u : TestU) (s s2 : St) (sg : Sig),
      sg ∈ [Sig.SIGSEGV, Sig.SIGILL, Sig.SIGFPE, Sig.SIGABRT, Sig.SIGTERM] →
      callLoop u.body cfg.test_count s = (s2, some (.signaled sg)) →
      testRun cfg hs u s = (s2, .failSignal sg) ∧
      (schedStep cfg hs u s).1.failed = s.failed + 1 ∧
      (schedStep cfg hs u s).1.successful = s.successful ∧
      ∀ rest : List TestU,
        runLoop cfg hs (u :: rest) s =
          ((runLoop cfg hs rest (schedStep cfg hs u s).1).1,
            renderOutcome cfg u.name (.failSignal sg) ++
              (runLoop cfg hs rest (schedStep cfg hs u s).1).2)) := by
  constructor
  · intro body n s s2 i h
    simp only [callLoop, h]
  · intro cfg hs u s s2 sg _ h
    have ht : testRun cfg hs u s = (s2, .failSignal sg) := by
      simp only [testRun, h]
    have hc := callLoop_counts u.body cfg.test_count s
    rw [h] at hc
    obtain ⟨hf, hsu, _, _⟩ := hc
    simp only [] at hf hsu
    refine ⟨ht, ?_, ?_, ?_⟩
    · simp [schedStep, ht, outcomeFails, hf]
    · simp [schedStep, ht, outcomeFails, hsu]
    · intro rest
      have hp2 : (schedStep cfg hs u s).2 = .failSignal sg := by
        simp [schedStep, ht]
      simp only [runLoop, hp2]

/-- C1 witness: a unit whose body segfaults, followed by a passing
unit; the segfaulting unit is counted failed once and the next unit
still runs and succeeds. -/
theorem claim_C1_witness :
    testRun cfgPlain [] uSegv initialState =
      (initialState, .failSignal .SIGSEGV) ∧
    (schedStep cfgPlain [] uSegv initialState).1.failed = 1 ∧
    (runLoop cfgPlain [] [uSegv, uPass] initialState).1.successful = 1 := by
  have h := claim_C1.2 cfgPlain [] uSegv initialState initialState .SIGSEGV
    (by simp) (by decide)
  refine ⟨h.1, h.2.1, ?_⟩
  rw [h.2.2.2 [uPass]]
  decide

/-- C2: an `EXPECT_SIGNAL(signalId)` block (for a signal of its
documented set, which excludes the timer signal SIGALRM) whose inner
code raises exactly signalId resumes control right after the block with
the expected-signal slot cleared, and when the whole invocation then
completes with no other failure, the unit's outcome is Success: the
scheduler increments the successful counter, not the failed counter. -/
theorem claim_C2 :
    (∀ (sg : Sig) (lit : String) (line : Nat) (ipre irest : List Step)
        (post : List Item) (s s1 : St),
      sg ≠ .SIGALRM →
      runInner ipre { s with expected_signal := sigToNat sg } = (s1, .cont) →
      runItem (.expectSig sg lit line (ipre ++ .raiseSig sg :: irest)) s =
        ({ s1 with expected_signal := 0 }, none) ∧
      runItems (.expectSig sg lit line (ipre ++ .raiseSig sg :: irest)
          :: post) s =
        runItems post { s1 with expected_signal := 0 }) ∧
    (∀ (cfg : Config) (hs : List Handler) (u : TestU) (s sf : St),
      callLoop u.body cfg.test_count s = (sf, none) →
      testRun cfg hs u s = (sf, .success) ∧
      (schedStep cfg hs u s).1.successful = s.successful + 1 ∧
      (schedStep cfg hs u s).1.failed = s.failed) := by
  constructor
  · intro sg lit line ipre irest post s s1 halarm hpre
    have hexp : s1.expected_signal = sigToNat sg := by
      have h := runInner_cont_expected hpre
      simpa using h
    have hh : handle_shared_signal (sigToNat sg) s1 =
        ({ s1 with expected_signal := 0 }, .expectJump) := by
      unfold handle_shared_signal
      rw [if_neg (fun hc => sigToNat_eq_alarm halarm hc.1), if_pos hexp]
    have hstep : runInnerStep (.raiseSig sg) s1 =
        ({ s1 with expected_signal := 0 }, .jumped) := by
      simp only [runInnerStep, hh]
    have hrest : runInner (Step.raiseSig sg :: irest) s1 =
        ({ s1 with expected_signal := 0 }, .jumped) := by
      simp only [runInner, hstep]
    have hitem : runItem (.expectSig sg lit line
        (ipre ++ .raiseSig sg :: irest)) s =
        ({ s1 with expected_signal := 0 }, none) := by
      simp only [runItem, runInner_append, hpre, hrest]
    exact ⟨hitem, by simp only [runItems, hitem]⟩
  · intro cfg hs u s sf h
    have ht : testRun cfg hs u s = (sf, .success) := by
      simp only [testRun, h]
    have hc := callLoop_counts u.body cfg.test_count s
    rw [h] at hc
    obtain ⟨hf, hsu, _, _⟩ := hc
    simp only [] at hf hsu
    exact ⟨ht, by simp [schedStep, ht, outcomeFails, hsu],
      by simp [schedStep, ht, outcomeFails, hf]⟩

/-- C2 witness: a block expecting SIGSEGV whose inner code raises
SIGSEGV; the block resumes with the slot cleared and the unit as a
whole succeeds under the scheduler. -/
theorem claim_C2_witness :
    runItem (.expectSig .SIGSEGV "SIGSEGV" 10
        ([.compute] ++ .raiseSig .SIGSEGV :: []))
      initialState = (initialState, none) ∧
    testRun cfgPlain [] uExpectOk initialState = (initialState, .success) ∧
    (schedStep cfgPlain [] uExpectOk initialState).1.successful = 1 := by
  have h1 := (claim_C2.1 .SIGSEGV "SIGSEGV" 10 [.compute] [] []
    initialState { initialState with expected_signal := 11 }
    (by decide) (by decide)).1
  have h2 := claim_C2.2 cfgPlain [] uExpectOk initialState initialState
    (by decide)
  exact ⟨by simpa using h1, h2.1, h2.2.1.trans rfl⟩

/-- C7: a unit whose body invokes the skip primitive is reported
skipped: the skipped counter is incremented inside `test::run`, the
scheduler then increments the successful counter and leaves the failed
counter unchanged, the skip reason is printed exactly when
`VSTL_PRINT_SKIP_REASON` is enabled, and the summary displays
`successful - skipped` as the succeeded count. -/
theorem claim_C7 :
    ∀ (cfg : Config) (hs : List Handler) (u : TestU) (s s1 : St)
      (r : String),
      callLoop u.body cfg.test_count s = (s1, some (.thrown (.testSkip r))) →
      testRun cfg hs u s =
        ({ s1 with skipped := s1.skipped + 1 }, .skippedO r) ∧
      (schedStep cfg hs u s).1.failed = s.failed ∧
      (schedStep cfg hs u s).1.successful = s.successful + 1 ∧
      (schedStep cfg hs u s).1.skipped = s.skipped + 1 ∧
      (cfg.print_skip_reason = true →
        renderOutcome cfg u.name (.skippedO r) =
          ["Test '" ++ u.name ++ "' " ++ skippedWord cfg ++ "!" ++
            (" " ++ r)]) ∧
      (cfg.print_skip_reason = false →
        renderOutcome cfg u.name (.skippedO r) =
          ["Test '" ++ u.name ++ "' " ++ skippedWord cfg ++ "!"]) ∧
      (∀ t : String, summary cfg (schedStep cfg hs u s).1 t =
        summaryDisplay cfg
          ((schedStep cfg hs u s).1.failed +
            (schedStep cfg hs u s).1.successful)
          (schedStep cfg hs u s).1.failed
          ((schedStep cfg hs u s).1.successful -
            (schedStep cfg hs u s).1.skipped) t) := by
  intro cfg hs u s s1 r h
  have ht : testRun cfg hs u s =
      ({ s1 with skipped := s1.skipped + 1 }, .skippedO r) := by
    simp only [testRun, h]
  have hc := callLoop_counts u.body cfg.test_count s
  rw [h] at hc
  obtain ⟨hf, hsu, hk, _⟩ := hc
  simp only [] at hf hsu hk
  refine ⟨ht, ?_, ?_, ?_, ?_, ?_, fun t => rfl⟩
  · simp [schedStep, ht, outcomeFails, hf]
  · simp [schedStep, ht, outcomeFails, hsu]
  · simp [schedStep, ht, outcomeFails, hk]
  · intro hp
    simp [renderOutcome, hp]
  · intro hp
    simp [renderOutcome, hp]

/-- C7 witness: a unit that skips with a reason, under the default
configuration (skip reasons not printed) and with the reason-printing
configuration switched on. -/
theorem claim_C7_witness :
    testRun cfgPlain [] uSkipT initialState =
      ({ initialState with skipped := 1 }, .skippedO "because") ∧
    (schedStep cfgPlain [] uSkipT initialState).1.failed = 0 ∧
    (schedStep cfgPlain [] uSkipT initialState).1.successful = 1 ∧
    renderOutcome cfgPlain uSkipT.name (.skippedO "because") =
      ["Test 'skippy' skipped!"] := by
  have h := claim_C7 cfgPlain [] uSkipT initialState initialState "because"
    (by decide)
  refine ⟨by simpa using h.1, h.2.1.trans rfl, h.2.2.1.trans rfl, ?_⟩
  simpa using h.2.2.2.2.2.1 rfl

lemma sigToNat_alarm_code {x : Sig} (h : sigToNat x = SIGALRM_code) :
    x = .SIGALRM := by
  cases x <;> first | rfl | simp [sigToNat, SIGALRM_code] at h

/-- C3 counterexample: for a unit whose `EXPECT_SIGNAL(SIGSEGV)` block
raises SIGILL (a different signal), the outcome is the signal failure
produced by the default print path of the handler — not a Failure whose
message contains "Expected signal": the single printed line reports the
received signal and does not contain that phrase. -/
theorem claim_C3_counterexample :
    (testRun cfgPlain [] uExpectDiff initialState).2 =
      Outcome.failSignal Sig.SIGILL ∧
    containsSeq ("Expected signal").toList
      (String.join (renderOutcome cfgPlain uExpectDiff.name
        (testRun cfgPlain [] uExpectDiff initialState).2)).toList = false := by
  exact ⟨rfl, by decide⟩

/-- C3 (amended): an `EXPECT_SIGNAL(signalId)` block that ends with no
signal raised fails the unit through `FAIL` with a `test_error` whose
message begins with "Expected signal"; a signal *different* from
signalId raised inside the block also fails the unit, but through the
signal path: the handler's default print names the received signal and
the Failure is the signal failure, not the "Expected signal" one. -/
theorem claim_C3 :
    (∀ (sg : Sig) (lit : String) (line : Nat) (inner : List Step)
        (s s1 : St),
      runInner inner { s with expected_signal := sigToNat sg } =
        (s1, .cont) →
      runItem (.expectSig sg lit line inner) s =
        (s1, some (.thrown (.testError
          ("Expected signal " ++ lit ++ ", on line " ++ toString line
            ++ "!"))))) ∧
    (∀ (cfg : Config) (hs : List Handler) (u : TestU) (s s1 : St)
        (m : String),
      callLoop u.body cfg.test_count s = (s1, some (.thrown (.testError m))) →
      testRun cfg hs u s = (s1, .failError m) ∧
      (schedStep cfg hs u s).1.failed = s.failed + 1) ∧
    (∀ (sg sg2 : Sig) (lit : String) (line : Nat) (ipre irest : List Step)
        (s s1 : St),
      sg2 ≠ sg →
      ¬(sg2 = .SIGALRM ∧ s1.fail_on_alarm = true) →
      runInner ipre { s with expected_signal := sigToNat sg } =
        (s1, .cont) →
      runItem (.expectSig sg lit line (ipre ++ .raiseSig sg2 :: irest)) s =
        (s1, some (.signaled sg2))) ∧
    (∀ (cfg : Config) (hs : List Handler) (u : TestU) (s s1 : St)
        (sg2 : Sig),
      callLoop u.body cfg.test_count s = (s1, some (.signaled sg2)) →
      testRun cfg hs u s = (s1, .failSignal sg2) ∧
      (schedStep cfg hs u s).1.failed = s.failed + 1 ∧
      renderOutcome cfg u.name (.failSignal sg2) =
        ["Test '" ++ u.name ++ "' " ++ failedWord cfg
          ++ "! Error: Received " ++ get_signal_name (sigToNat sg2)
          ++ " (#" ++ toString (sigToNat sg2) ++ ")!"]) := by
  refine ⟨?_, ?_, ?_, ?_⟩
  · intro sg lit line inner s s1 hin
    simp only [runItem, hin]
  · intro cfg hs u s s1 m h
    have ht : testRun cfg hs u s = (s1, .failError m) := by
      simp only [testRun, h]
    have hc := callLoop_counts u.body cfg.test_count s
    rw [h] at hc
    obtain ⟨hf, _, _, _⟩ := hc
    simp only [] at hf
    exact ⟨ht, by simp [schedStep, ht, outcomeFails, hf]⟩
  · intro sg sg2 lit line ipre irest s s1 hne hno hpre
    have hexp : s1.expected_signal = sigToNat sg := by
      have h := runInner_cont_expected hpre
      simpa using h
    have hh : handle_shared_signal (sigToNat sg2) s1 = (s1, .defaultPrint) := by
      unfold handle_shared_signal
      rw [if_neg, if_neg]
      · rw [hexp]
        exact fun hc => hne (sigToNat_inj hc).symm
      · exact fun hc => hno ⟨sigToNat_alarm_code hc.1, hc.2⟩
    have hstep : runInnerStep (.raiseSig sg2) s1 =
        (s1, .interrupted (.signaled sg2)) := by
      simp only [runInnerStep, hh]
    have hrest : runInner (Step.raiseSig sg2 :: irest) s1 =
        (s1, .interrupted (.signaled sg2)) := by
      simp only [runInner, hstep]
    simp only [runItem, runInner_append, hpre, hrest]
  · intro cfg hs u s s1 sg2 h
    have ht : testRun cfg hs u s = (s1, .failSignal sg2) := by
      simp only [testRun, h]
    have hc := callLoop_counts u.body cfg.test_count s
    rw [h] at hc
    obtain ⟨hf, _, _, _⟩ := hc
    simp only [] at hf
    exact ⟨ht, by simp [schedStep, ht, outcomeFails, hf], rfl⟩

/-- C3 witness: the no-signal case on a concrete block, and the
different-signal case on the same concrete unit as the counterexample. -/
theorem claim_C3_witness :
    runItem (.expectSig .SIGSEGV "SIGSEGV" 20 [.compute]) initialState =
      ({ initialState with expected_signal := 11 },
        some (.thrown (.testError "Expected signal SIGSEGV, on line 20!"))) ∧
    runItem (.expectSig .SIGSEGV "SIGSEGV" 30
        ([] ++ .raiseSig .SIGILL :: [])) initialState =
      ({ initialState with expected_signal := 11 },
        some (.signaled .SIGILL)) := by
  constructor
  · have h := claim_C3.1 .SIGSEGV "SIGSEGV" 20 [.compute] initialState
      { initialState with expected_signal := 11 } (by decide)
    simpa using h
  · exact claim_C3.2.2.1 .SIGSEGV .SIGILL "SIGSEGV" 30 [] [] initialState
      { initialState with expected_signal := 11 }
      (by decide) (by decide) (by decide)

/-- C6: for a raised error that is none of the intrinsic shapes, the
classifier consults the registered translation handlers in registration
order: the first handler that throws a `test_error` determines the
failure and no later handler is consulted; a handler that throws any
other error, or returns normally, is passed over; when no handler
converts the error, the diagnostic extracted from the known primitive
shapes is reported under the "Unregistered exception" label. -/
theorem claim_C6 :
    (∀ (h : Handler) (rest : List Handler) (e : Thrown) (m : String),
      h e = some (.testError m) →
      classify (h :: rest) e = .failError m) ∧
    (∀ (h : Handler) (rest : List Handler) (e e2 : Thrown),
      h e = some e2 → (∀ m : String, e2 ≠ .testError m) →
      classify (h :: rest) e = classify rest e) ∧
    (∀ (h : Handler) (rest : List Handler) (e : Thrown),
      h e = none → classify (h :: rest) e = classify rest e) ∧
    (∀ (hs : List Handler) (e : Thrown),
      (∀ h ∈ hs, ∀ m : String, h e ≠ some (.testError m)) →
      classify hs e = .failUnregistered (fallbackDiag e)) ∧
    (∀ (cfg : Config) (hs : List Handler) (u : TestU) (s s1 : St)
        (e : Thrown),
      intrinsicThrown e = false →
      callLoop u.body cfg.test_count s = (s1, some (.thrown e)) →
      testRun cfg hs u s = (s1, classify hs e)) ∧
    (∀ (cfg : Config) (name d : String),
      renderOutcome cfg name (.failUnregistered d) =
        ["Test '" ++ name ++ "' " ++ failedWord cfg
          ++ "! Unregistered exception thrown! " ++ d]) := by
  refine ⟨?_, ?_, ?_, ?_, ?_, fun cfg name d => rfl⟩
  · intro h rest e m hhe
    simp only [classify, hhe]
  · intro h rest e e2 hhe hne
    cases e2 with
    | testError m => exact absurd rfl (hne m)
    | testSkip m => simp only [classify, hhe]
    | stdExcept m => simp only [classify, hhe]
    | charPtr m => simp only [classify, hhe]
    | intVal n => simp only [classify, hhe]
    | longVal n => simp only [classify, hhe]
    | otherExc => simp only [classify, hhe]
  · intro h rest e hhe
    simp only [classify, hhe]
  · intro hs e hno
    induction hs with
    | nil => rfl
    | cons h rest ih =>
      have hhead := hno h (List.mem_cons_self h rest)
      have htail : ∀ h2 ∈ rest, ∀ m : String,
          h2 e ≠ some (.testError m) :=
        fun h2 hm m => hno h2 (List.mem_cons_of_mem h hm) m
      rcases hhe : h e with _ | e2
      · rw [classify]
        simp only [hhe]
        exact ih htail
      · cases e2 with
        | testError m => exact absurd hhe (hhead m)
        | testSkip m => rw [classify]; simp only [hhe]; exact ih htail
        | stdExcept m => rw [classify]; simp only [hhe]; exact ih htail
        | charPtr m => rw [classify]; simp only [hhe]; exact ih htail
        | intVal n => rw [classify]; simp only [hhe]; exact ih htail
        | longVal n => rw [classify]; simp only [hhe]; exact ih htail
        | otherExc => rw [classify]; simp only [hhe]; exact ih htail
  · intro cfg hs u s s1 e hi h
    cases e with
    | testError m => exact absurd hi (by simp [intrinsicThrown])
    | testSkip m => exact absurd hi (by simp [intrinsicThrown])
    | stdExcept m => exact absurd hi (by simp [intrinsicThrown])
    | charPtr m => simp only [testRun, h]
    | intVal n => simp only [testRun, h]
    | longVal n => simp only [testRun, h]
    | otherExc => simp only [testRun, h]

/-- C6 witness: a chain of three concrete handlers — one that throws an
unrelated error, one that converts `const char*` errors, one that
returns normally — classifying a thrown `const char*`, and the fallback
on a thrown `int` with no converting handler. -/
theorem claim_C6_witness :
    classify [hChar] (.charPtr "boom") = .failError "Custom boom" ∧
    classify (hBad :: [hChar]) (.charPtr "boom") =
      classify [hChar] (.charPtr "boom") ∧
    classify (hSilent :: [hChar]) (.charPtr "boom") =
      classify [hChar] (.charPtr "boom") ∧
    classify [hSilent] (.intVal 7) =
      .failUnregistered "Error: (int) 7" ∧
    testRun cfgPlain [hChar] uThrowChar initialState =
      (initialState, classify [hChar] (.charPtr "boom")) := by
  refine ⟨?_, ?_, ?_, ?_, ?_⟩
  · exact claim_C6.1 hChar [] (.charPtr "boom") "Custom boom" rfl
  · exact claim_C6.2.1 hBad [hChar] (.charPtr "boom") .otherExc rfl
      (fun m hc => Thrown.noConfusion hc)
  · exact claim_C6.2.2.1 hSilent [hChar] (.charPtr "boom") rfl
  · have h := claim_C6.2.2.2.1 [hSilent] (.intVal 7)
      (fun h2 hm m => by
        rw [List.mem_singleton] at hm
        subst hm
        exact fun hc => Option.noConfusion hc)
    simpa [fallbackDiag] using h
  · exact claim_C6.2.2.2.2.1 cfgPlain [hChar] uThrowChar initialState
      initialState (.charPtr "boom") rfl (by decide)

/-- C8: `set_timeout(0)` disarms the timer and clears the fail-on-alarm
flag while any non-zero duration arms both; the timer is reset before
every invocation of a unit body; and when the armed timer's SIGALRM is
delivered the unit fails as a timeout ("Timeout reached!"), counted as
exactly one failure, so the scheduler is released at the timer's expiry
rather than blocking on the unit. -/
theorem claim_C8 :
    (∀ s : St, set_timeout 0 s =
        { s with fail_on_alarm := false, timer := 0 } ∧
      ∀ ms : Nat, ms ≠ 0 → (set_timeout ms s).fail_on_alarm = true ∧
        (set_timeout ms s).timer = ms) ∧
    (∀ s : St, (resetForInvocation s).timer = 0 ∧
      (resetForInvocation s).fail_on_alarm = false) ∧
    (∀ (body : List Item) (n : Nat) (s : St),
      callLoop body (n + 1) s =
        (match runItems body (resetForInvocation s) with
          | (s1, none) => callLoop body n s1
          | (s1, some i) => (s1, some i))) ∧
    (∀ s : St, s.fail_on_alarm = true →
      runTopStep (.raiseSig .SIGALRM) s = (s, some .timeoutHit)) ∧
    (∀ (cfg : Config) (hs : List Handler) (u : TestU) (s s1 : St),
      callLoop u.body cfg.test_count s = (s1, some .timeoutHit) →
      testRun cfg hs u s = (s1, .failTimeout) ∧
      (schedStep cfg hs u s).1.failed = s.failed + 1 ∧
      renderOutcome cfg u.name .failTimeout =
        ["Test '" ++ u.name ++ "' " ++ failedWord cfg
          ++ "! Timeout reached!"]) := by
  refine ⟨?_, fun s => ⟨rfl, rfl⟩, fun body n s => rfl, ?_, ?_⟩
  · intro s
    refine ⟨rfl, fun ms hms => ⟨?_, rfl⟩⟩
    simp [set_timeout]
    exact hms
  · intro s h
    have hh : handle_shared_signal (sigToNat .SIGALRM) s = (s, .timeout) := by
      unfold handle_shared_signal
      rw [if_pos ⟨rfl, h⟩]
    simp only [runTopStep, runInnerStep, hh]
  · intro cfg hs u s s1 h
    have ht : testRun cfg hs u s = (s1, .failTimeout) := by
      simp only [testRun, h]
    have hc := callLoop_counts u.body cfg.test_count s
    rw [h] at hc
    obtain ⟨hf, _, _, _⟩ := hc
    simp only [] at hf
    exact ⟨ht, by simp [schedStep, ht, outcomeFails, hf], rfl⟩

/-- C8 witness: a unit that arms a 100 ms timeout and is hit by the
timer's SIGALRM, processed under the scheduler, next to the disarming
behaviour of `set_timeout 0` on the armed state. -/
theorem claim_C8_witness :
    (set_timeout 0 armedSt).fail_on_alarm = false ∧
    (set_timeout 0 armedSt).timer = 0 ∧
    testRun cfgPlain [] uTimeout initialState =
      ({ initialState with fail_on_alarm := true, timer := 100 },
        .failTimeout) ∧
    (schedStep cfgPlain [] uTimeout initialState).1.failed = 1 := by
  have h1 := (claim_C8.1 armedSt).1
  have h2 := claim_C8.2.2.2.2 cfgPlain [] uTimeout initialState
    { initialState with fail_on_alarm := true, timer := 100 } (by decide)
  exact ⟨by rw [h1], by rw [h1], h2.1, h2.2.1.trans rfl⟩

end vstl
